import Mathlib

/-!
Verification development for mqtt-recorder-rs.

This file gives a shallow embedding, in Lean 4, of the core of the
mqtt-recorder-rs repository (the recording stream manager of
`src/file_manager.rs`, the statistics engine of `src/stats.rs`, the replay
file discovery of `src/replay.rs`, and the replay task of `src/main.rs`),
and proves or refutes the specification's claims about it.

Modelling conventions:
  * machine integers (`u32`, `u64`, `u8`) are modelled as `Nat`;
  * `f64` values that only flow through field-wise arithmetic
    (record times, payload statistics, the replay speed) are modelled as `ℚ`;
    the inputs appearing in concrete theorems are exactly representable in
    `f64`, so the `ℚ` arithmetic coincides with the `f64` arithmetic there;
  * `Instant` is modelled as a `Nat` number of seconds supplied explicitly to
    each operation (`now`); `Local::now()` derived strings (the fresh base
    timestamp and the date directory) are likewise explicit parameters;
  * a `HashMap<String, V>` is modelled as a function `String → Option V`
    (for the file manager) or as an association list (for the statistics
    accumulator, whose key set is iterated);
  * fallible operations return an explicit result type; a Rust `unwrap` on
    `None` is a distinguished `panic` result.
-/

/-! ## Base64 codec

The recorder stores payload bytes with `base64::encode` and replay and the
statistics engine recover them with `base64::decode` (`base64` crate,
standard alphabet with `=` padding).  Bytes are `Nat` values `< 256`; the
encoded text is a `List Char`.  `base64Decode` models the decoder on the
canonical padded forms that `base64::encode` emits (the decoder rejects
characters outside the alphabet, misplaced padding, and non-zero trailing
bits, as the crate's strict default configuration does).
-/

/-- The 64-character standard base64 alphabet, in value order. -/
def b64Alphabet : List Char :=
  "ABCDEFGHIJKLMNOPQRSTUVWXYZabcdefghijklmnopqrstuvwxyz0123456789+/".data

/-- Character for a 6-bit group (argument `< 64` in every use). -/
def sextetChar (n : Nat) : Char := b64Alphabet.getD n 'A'

/-- Value of an alphabet character; `none` for a character outside the
alphabet (in particular for the padding character). -/
def charSextet (c : Char) : Option Nat := b64Alphabet.findIdx? (· = c)

/-- `base64::encode`: 3 input bytes become 4 alphabet characters; a final
group of 1 or 2 bytes is padded with `=`. -/
def base64Encode : List Nat → List Char
  | [] => []
  | [b0] => [sextetChar (b0 / 4), sextetChar (b0 % 4 * 16), '=', '=']
  | [b0, b1] =>
      [sextetChar (b0 / 4), sextetChar (b0 % 4 * 16 + b1 / 16),
       sextetChar (b1 % 16 * 4), '=']
  | b0 :: b1 :: b2 :: rest =>
      sextetChar (b0 / 4) :: sextetChar (b0 % 4 * 16 + b1 / 16) ::
      sextetChar (b1 % 16 * 4 + b2 / 64) :: sextetChar (b2 % 64) ::
      base64Encode rest

/-- `base64::decode` on the canonical padded forms: groups of 4 characters,
with `=` or `==` only in a final group, and zero trailing bits required. -/
def base64Decode : List Char → Option (List Nat)
  | [] => some []
  | c0 :: c1 :: c2 :: c3 :: rest =>
      if c2 = '=' then
        if c3 = '=' ∧ rest = [] then
          match charSextet c0, charSextet c1 with
          | some s0, some s1 =>
              if s1 % 16 = 0 then some [s0 * 4 + s1 / 16] else none
          | _, _ => none
        else none
      else if c3 = '=' then
        if rest = [] then
          match charSextet c0, charSextet c1, charSextet c2 with
          | some s0, some s1, some s2 =>
              if s2 % 4 = 0 then
                some [s0 * 4 + s1 / 16, s1 % 16 * 16 + s2 / 4]
              else none
          | _, _, _ => none
        else none
      else
        match charSextet c0, charSextet c1, charSextet c2, charSextet c3,
            base64Decode rest with
        | some s0, some s1, some s2, some s3, some tail =>
            some ((s0 * 4 + s1 / 16) :: (s1 % 16 * 16 + s2 / 4) ::
                  (s2 % 4 * 64 + s3) :: tail)
        | _, _, _, _, _ => none
  | _ => none

/-! ## Replay record handling (`src/main.rs`, replay task)

One record line of a recording file carries the fields of `MqttMessage`
(`src/message.rs` / `src/main.rs`).  The replay task parses each line with
serde; the parse result is the `Option MqttMessage` input below (a line of
malformed JSON parses to `none`).
-/

/-- One on-disk message record (`struct MqttMessage`).  `time` is `f64`
seconds since epoch, modelled as `ℚ`; `qos` is a `u8`. -/
structure MqttMessage where
  time : ℚ
  qos : Nat
  retain : Bool
  topic : String
  msg_b64 : String
deriving DecidableEq

/-- The three wire QoS levels of `rumqttc::QoS`. -/
inductive RQoS where
  | atMostOnce
  | atLeastOnce
  | exactlyOnce
deriving DecidableEq

/-- The replay task's `match msg.qos` arm: 0, 1, 2 map to the three levels,
anything else falls to `AtMostOnce`. -/
def qosOf : Nat → RQoS
  | 0 => RQoS.atMostOnce
  | 1 => RQoS.atLeastOnce
  | 2 => RQoS.exactlyOnce
  | _ => RQoS.atMostOnce

/-- Outcome of handling one replay line: the line is skipped (serde parse
failed), or the task panics (`base64::decode(..).unwrap()` on a decode
error), or a publish is emitted after a sleep. -/
inductive LineOutcome where
  | skip
  | panic
  | emit (sleepMs : Nat) (topic : String) (q : RQoS) (payload : List Nat)
      (newPrevious : ℚ)
deriving DecidableEq

/-- The sleep the replay task performs before emitting a record whose
decoded time is `t`, when the pacing variable holds `previous`:
`((msg.time - previous) * 1000.0 / speed) as u64`, where `previous` was
first reset to `msg.time` if it was negative.  The `as u64` cast truncates
and sends negative values to `0`, hence `Int.toNat ∘ Int.floor`. -/
def replaySleepMs (speed previous t : ℚ) : Nat :=
  (Int.floor ((t - (if previous < 0 then t else previous)) * 1000 / speed)).toNat

/-- Handling of one line of a recording file by the replay task
(`src/main.rs`, lines 359-386): a line that fails to parse as an
`MqttMessage` is skipped; otherwise the task sleeps, coerces the QoS, and
unwraps the base64 decode of the payload (panicking if it fails). -/
def processLine (speed previous : ℚ) (parsed : Option MqttMessage) :
    LineOutcome :=
  match parsed with
  | none => LineOutcome.skip
  | some msg =>
      let sleep := replaySleepMs speed previous msg.time
      match base64Decode msg.msg_b64.data with
      | none => LineOutcome.panic
      | some payload =>
          LineOutcome.emit sleep msg.topic (qosOf msg.qos) payload msg.time

/-- The sequence of sleeps the replay task performs over a list of parsed
records, threading the `previous` pacing variable exactly as the source does
(`previous` starts at `-1.0` for a pass and is set to `msg.time` after each
emitted record, and also before the sleep whenever it is negative). -/
def replaySleeps (speed : ℚ) : ℚ → List MqttMessage → List Nat
  | _, [] => []
  | previous, m :: rest =>
      replaySleepMs speed previous m.time :: replaySleeps speed m.time rest

/-- The sleep sequence as the specification words it: no sleep for the first
record of a pass, then `max(0, (record.time - previous.time) * 1000 / speed)`
milliseconds before each subsequent record, where `previous` is the
previously emitted record.  (Follows the spec's words; stated at millisecond
granularity, matching the `u64` sleep argument.) -/
def specSleeps (speed : ℚ) : Option ℚ → List MqttMessage → List Nat
  | _, [] => []
  | none, m :: rest => 0 :: specSleeps speed (some m.time) rest
  | some p, m :: rest =>
      (Int.floor (max 0 ((m.time - p) * 1000 / speed))).toNat ::
        specSleeps speed (some m.time) rest

/-! ## Filename codec and replay file discovery (`src/replay.rs`)

`get_files_in_range` recursively collects the `.json` files under a
directory, optionally filters them by the timestamp decoded from each
filename, and sorts the result.  The directory walk is modelled by handing
the function the list of collected paths (as `String`s); `Path::file_stem`,
`Path::extension` and `str::split('-')` are modelled on `List Char`.
`chrono::NaiveDateTime::parse_from_str` is modelled as a fixed-width parse
of the respective format string with calendar validation — exactly the
shape of every name the recorder produces; a parsed date-time is encoded as
a single `Nat` key that is strictly monotone in chronological order, so
`Nat` comparison of keys models `NaiveDateTime` comparison. -/

/-- Split a character list at every occurrence of `sep`
(`str::split` semantics: `"a--b"` gives `["a", "", "b"]`, `""` gives
`[""]`). -/
def splitOnChar (sep : Char) : List Char → List (List Char)
  | [] => [[]]
  | c :: rest =>
      if c = sep then [] :: splitOnChar sep rest
      else
        match splitOnChar sep rest with
        | [] => [[c]]
        | g :: gs => (c :: g) :: gs

/-- Split a file name at its last `.`, provided that dot is not the leading
character (`Path` semantics: `".json"` has no extension). -/
def splitLastDot : List Char → Option (List Char × List Char)
  | [] => none
  | '.' :: rest =>
      match splitLastDot rest with
      | some (b, a) => some ('.' :: b, a)
      | none => some ([], rest)
  | c :: rest =>
      match splitLastDot rest with
      | some (b, a) => some (c :: b, a)
      | none => none

/-- Split at the last dot strictly after the first character, as `Path`
does for `file_stem` / `extension`. -/
def rustLastDot : List Char → Option (List Char × List Char)
  | [] => none
  | c :: rest =>
      match splitLastDot rest with
      | none => none
      | some (b, a) => some (c :: b, a)

/-- The final path component (`Path::file_name`, for the well-formed paths
at hand). -/
def pathFileName (p : List Char) : List Char :=
  (splitOnChar '/' p).getLastD []

/-- `Path::extension().and_then(to_str)`. -/
def pathExtension (p : List Char) : Option (List Char) :=
  (rustLastDot (pathFileName p)).map Prod.snd

/-- `Path::file_stem().and_then(to_str)`. -/
def pathFileStem (p : List Char) : Option (List Char) :=
  match pathFileName p with
  | [] => none
  | name =>
      match rustLastDot name with
      | some (b, _) => some b
      | none => some name

/-- `filename.strip_prefix("mqtt-recorder-")` of the retain closure. -/
def dropRecorderLabel (cs : List Char) : Option (List Char) :=
  if "mqtt-recorder-".data.isPrefixOf cs then some (cs.drop 14) else none

/-- Numeric value of a digit string (every use is guarded by
`Char.isDigit`). -/
def digitsVal (cs : List Char) : Nat :=
  cs.foldl (fun a c => a * 10 + (c.toNat - 48)) 0

/-- `chrono`'s leap-year rule. -/
def isLeapYear (y : Nat) : Bool :=
  y % 4 = 0 && (y % 100 ≠ 0 || y % 400 = 0)

/-- Days in a month, as `chrono` validates them. -/
def daysInMonth (y mo : Nat) : Nat :=
  if mo = 2 then (if isLeapYear y then 29 else 28)
  else if mo = 4 ∨ mo = 6 ∨ mo = 9 ∨ mo = 11 then 30
  else 31

/-- Calendar validation plus encoding of a date-time into one `Nat` key,
strictly monotone in chronological order (mixed radix with bases wide
enough for each field). -/
def mkDtKey (y mo dy hr mi sec : Nat) : Option Nat :=
  if 1 ≤ mo ∧ mo ≤ 12 ∧ 1 ≤ dy ∧ dy ≤ daysInMonth y mo ∧ hr ≤ 23 ∧
      mi ≤ 59 ∧ sec ≤ 59 then
    some (((((y * 13 + mo) * 32 + dy) * 24 + hr) * 60 + mi) * 60 + sec)
  else none

/-- `NaiveDateTime::parse_from_str(time_part, "%Y-%m-%d-%H%M")` (the
standard-recording grammar), fixed width. -/
def parseStdTimePart : List Char → Option Nat
  | [y1, y2, y3, y4, '-', m1, m2, '-', d1, d2, '-', h1, h2, n1, n2] =>
      if ([y1, y2, y3, y4, m1, m2, d1, d2, h1, h2, n1, n2].all Char.isDigit)
      then
        mkDtKey (digitsVal [y1, y2, y3, y4]) (digitsVal [m1, m2])
          (digitsVal [d1, d2]) (digitsVal [h1, h2]) (digitsVal [n1, n2]) 0
      else none
  | _ => none

/-- `NaiveDateTime::parse_from_str(ts, "%Y%m%d-%H%M%S")` (the per-topic
base-timestamp grammar), fixed width. -/
def parseTsTimePart : List Char → Option Nat
  | [y1, y2, y3, y4, m1, m2, d1, d2, '-', h1, h2, n1, n2, s1, s2] =>
      if ([y1, y2, y3, y4, m1, m2, d1, d2, h1, h2, n1, n2, s1, s2].all
          Char.isDigit) then
        mkDtKey (digitsVal [y1, y2, y3, y4]) (digitsVal [m1, m2])
          (digitsVal [d1, d2]) (digitsVal [h1, h2]) (digitsVal [n1, n2])
          (digitsVal [s1, s2])
      else none
  | _ => none

/-- `NaiveDateTime::parse_from_str(s, "%Y-%m-%d %H:%M")`, the format of the
`start_time` / `end_time` command-line bounds. -/
def parseBoundChars : List Char → Option Nat
  | [y1, y2, y3, y4, '-', m1, m2, '-', d1, d2, ' ', h1, h2, ':', n1, n2] =>
      if ([y1, y2, y3, y4, m1, m2, d1, d2, h1, h2, n1, n2].all Char.isDigit)
      then
        mkDtKey (digitsVal [y1, y2, y3, y4]) (digitsVal [m1, m2])
          (digitsVal [d1, d2]) (digitsVal [h1, h2]) (digitsVal [n1, n2]) 0
      else none
  | _ => none

/-- The `start_time.and_then(parse_from_str(.., "%Y-%m-%d %H:%M").ok())`
step, on a `String` bound. -/
def parseBoundStr (s : String) : Option Nat := parseBoundChars s.data

/-- The timestamp the retain closure of `get_files_in_range` decodes from a
path: try the standard grammar on the part after `mqtt-recorder-`; failing
that, split on `-` and — exactly as the source slices — take
`parts[len-4 .. len-1]` joined with `-` when the last part is all digits and
there are at least 4 parts, else `parts[len-2 ..]` joined, and parse that as
`%Y%m%d-%H%M%S`.  (In the source the in-range test is inlined in each
grammar branch; both branches perform the identical test, so it is factored
out after the decode.) -/
def fileDt (path : String) : Option Nat :=
  match pathFileStem path.data with
  | none => none
  | some stem =>
      match dropRecorderLabel stem with
      | none => none
      | some timePart =>
          match parseStdTimePart timePart with
          | some dt => some dt
          | none =>
              let parts := splitOnChar '-' timePart
              if parts.length ≥ 3 then
                let lastPart := parts.getLastD []
                let tsPart :=
                  if lastPart.all Char.isDigit ∧ parts.length ≥ 4 then
                    List.intercalate ['-']
                      ((parts.drop (parts.length - 4)).take 3)
                  else
                    List.intercalate ['-'] (parts.drop (parts.length - 2))
                parseTsTimePart tsPart
              else none

/-- The two `keep &=` range tests of the retain closure. -/
def inRangeB (startDt endDt : Option Nat) (dt : Nat) : Bool :=
  (match startDt with | some s => decide (s ≤ dt) | none => true) &&
  (match endDt with | some e => decide (dt ≤ e) | none => true)

/-- The retain closure of `get_files_in_range`: keep a path iff its
filename decodes and the decoded timestamp passes whichever bounds parsed.
-/
def keepFile (startDt endDt : Option Nat) (path : String) : Bool :=
  match fileDt path with
  | some dt => inRangeB startDt endDt dt
  | none => false

/-- `get_files_in_range` (`src/replay.rs`): keep the `.json` files; if
either bound string was supplied, parse the bounds (ignoring an unparseable
one) and retain by the filename filter; sort the result (`Vec::sort`,
lexicographic). -/
def get_files_in_range (paths : List String)
    (start_time end_time : Option String) : List String :=
  let files := paths.filter (fun p => pathExtension p.data = some "json".data)
  let files :=
    if start_time.isSome || end_time.isSome then
      let startDt := start_time.bind parseBoundStr
      let endDt := end_time.bind parseBoundStr
      files.filter (keepFile startDt endDt)
    else files
  List.insertionSort (fun a b => a ≤ b) files

/-- Follows the spec's words (§4.3): a filename decodes if, after
`mqtt-recorder-`, it matches the standard grammar `YYYY-MM-DD-HHMM`, or the
per-topic grammar whose trailing tokens are `YYYYMMDD-HHMMSS` with the
sequence suffix absent, or `YYYYMMDD-HHMMSS-<sequence>` with it present. -/
def specGrammarTimestamp (path : String) : Option Nat :=
  match pathFileStem path.data with
  | none => none
  | some stem =>
      match dropRecorderLabel stem with
      | none => none
      | some timePart =>
          match parseStdTimePart timePart with
          | some dt => some dt
          | none =>
              let parts := splitOnChar '-' timePart
              let noSeq := List.intercalate ['-']
                (parts.drop (parts.length - 2))
              let withSeq := List.intercalate ['-']
                ((parts.drop (parts.length - 3)).take 2)
              match parseTsTimePart noSeq with
              | some dt => some dt
              | none => parseTsTimePart withSeq

/-! ## Statistics engine (`src/stats.rs`)

`TopicStats` accumulates, per flattened JSON key-path, one typed sample
list; a periodic or forced flush computes one scalar statistic per key-path
and appends one line to the per-topic stats file.  The `HashMap` of
accumulators is modelled as an association list (its key set is iterated at
flush time); `Instant`s are explicit `Nat` seconds.  The flush's output
line is modelled by its structured content: the ordered list of
`(key-path, formatted statistic)` pairs (the wall-clock window-range text
that precedes them on the line carries no claim content). -/

/-- A `serde_json::Value`. -/
inductive JsonValue where
  | num (n : ℚ)
  | str (s : String)
  | bool (b : Bool)
  | null
  | arr (elems : List JsonValue)
  | obj (fields : List (String × JsonValue))

/-- The typed accumulator `enum JsonValueType`. -/
inductive JsonValueType where
  | number (values : List ℚ)
  | string (values : List String)
  | boolean (values : List Bool)
  | other
deriving DecidableEq

/-- The four accumulator kinds, for stating type-binding facts. -/
inductive JTag where
  | number
  | string
  | boolean
  | other
deriving DecidableEq

/-- Kind of an accumulator. -/
def JsonValueType.tag : JsonValueType → JTag
  | JsonValueType.number _ => JTag.number
  | JsonValueType.string _ => JTag.string
  | JsonValueType.boolean _ => JTag.boolean
  | JsonValueType.other => JTag.other

/-- Kind of a JSON leaf value as the accumulator classifies it. -/
def JsonValue.leafTag : JsonValue → JTag
  | JsonValue.num _ => JTag.number
  | JsonValue.str _ => JTag.string
  | JsonValue.bool _ => JTag.boolean
  | _ => JTag.other

/-- `JsonValueType::add_value`: push the value when its JSON type matches
the accumulator's variant, otherwise do nothing.  (`Number::as_f64` is
total on `serde_json` numbers, so the matching-number arm always pushes.) -/
def JsonValueType.add_value : JsonValueType → JsonValue → JsonValueType
  | JsonValueType.number vec, JsonValue.num n => JsonValueType.number (vec ++ [n])
  | JsonValueType.string vec, JsonValue.str s => JsonValueType.string (vec ++ [s])
  | JsonValueType.boolean vec, JsonValue.bool b => JsonValueType.boolean (vec ++ [b])
  | t, _ => t

/-- `JsonValueType::calculate_stat`: population variance for numbers
(`0.0` when empty), count of distinct values for strings and booleans
(a `HashSet`'s size, i.e. the number of distinct elements), `0.0` for
`Other`. -/
def JsonValueType.calculate_stat : JsonValueType → ℚ
  | JsonValueType.number values =>
      if values = [] then 0
      else
        (values.map (fun x => (x - values.sum / values.length) ^ 2)).sum /
          values.length
  | JsonValueType.string values => values.dedup.length
  | JsonValueType.boolean values => values.dedup.length
  | JsonValueType.other => 0

/-- The `or_insert_with` closure of `add_value_to_stats`: the accumulator
variant a first value creates. -/
def JsonValueType.ofValue : JsonValue → JsonValueType
  | JsonValue.num _ => JsonValueType.number []
  | JsonValue.str _ => JsonValueType.string []
  | JsonValue.bool _ => JsonValueType.boolean []
  | _ => JsonValueType.other

/-- First-occurrence lookup in an association list (`HashMap::get`). -/
def lookupAssoc {α : Type} : List (String × α) → String → Option α
  | [], _ => none
  | (k', v) :: rest, k => if k' = k then some v else lookupAssoc rest k

/-- Replace the entry at a key, or append it (`HashMap` insertion). -/
def updateAssoc {α : Type} : List (String × α) → String → α → List (String × α)
  | [], k, v => [(k, v)]
  | (k', v') :: rest, k, v =>
      if k' = k then (k, v) :: rest else (k', v') :: updateAssoc rest k v

/-- The per-topic accumulator state `struct TopicStats` (the stats file
handle is modelled by returning the flushed line from the flush). -/
structure TopicStats where
  data : List (String × JsonValueType)
  last_stats_time : Nat
  stats_start_time : Nat
  stats_interval_secs : Nat
deriving DecidableEq

/-- `TopicStats::add_value_to_stats`: fetch or create the key-path's typed
accumulator, then `add_value` the new value into it. -/
def TopicStats.add_value_to_stats (s : TopicStats) (key_path : String)
    (v : JsonValue) : TopicStats :=
  let entry :=
    match lookupAssoc s.data key_path with
    | some e => e
    | none => JsonValueType.ofValue v
  { s with data := updateAssoc s.data key_path (entry.add_value v) }

/-- `TopicStats::should_calculate_stats`. -/
def TopicStats.should_calculate_stats (s : TopicStats) (now : Nat) : Bool :=
  now - s.last_stats_time ≥ s.stats_interval_secs

/-- The value printed by the `{:.3}` format of the stats line: the
statistic rounded to 3 decimal places. -/
def format3 (q : ℚ) : ℚ := (round (q * 1000) : ℤ) / 1000

/-- `TopicStats::calculate_and_write_stats`: a no-op returning no line when
the accumulator holds no data; otherwise emit the key-paths in sorted order,
each with its formatted statistic, then clear the accumulators and restart
the window.  Returns the new state and the emitted line's
`(key-path, statistic)` pairs. -/
def TopicStats.calculate_and_write_stats (s : TopicStats) (now : Nat) :
    TopicStats × Option (List (String × ℚ)) :=
  if s.data = [] then (s, none)
  else
    ({ s with data := [], last_stats_time := now, stats_start_time := now },
      some ((List.insertionSort (fun a b => a ≤ b)
          (s.data.map Prod.fst)).filterMap
        (fun k => (lookupAssoc s.data k).map
          (fun vt => (k, format3 vt.calculate_stat)))))

/-! ## Recording stream manager (`src/file_manager.rs`)

`TopicFileManager` owns the per-topic streams and the optional aggregate
stream.  `HashMap`s are modelled as functions `String → Option _`; the
files created on disk are tracked in the `created` list (exclusive create:
opening an already-created path is the modelled I/O error); `Instant`s are
explicit `Nat` seconds, and the `Local::now()`-derived fresh base timestamp
and date-directory strings are explicit parameters.  The statistics
force-flush calls made on rotation write to a separate stats file and do
not affect any field modelled here, so `stats_manager` is carried only as
its configuration flags. -/

/-- Identity of a file created on disk by the manager (its path is a
function of these components). -/
inductive CreatedFile where
  | topicFile (topic date baseTimestamp : String) (fileNumber : Nat)
  | allTopicsFile (date baseTimestamp : String) (fileNumber : Nat)
deriving DecidableEq

/-- Does a created file belong to the given topic's stream? -/
def CreatedFile.isForTopic : CreatedFile → String → Bool
  | CreatedFile.topicFile t _ _ _, topic => t = topic
  | CreatedFile.allTopicsFile _ _ _, _ => false

/-- The per-stream tuple `(File, PathBuf, Instant, u32, u32)` of the
`files` map: (path, last access, message count, file number). -/
structure FileEntry where
  path : CreatedFile
  last_access : Nat
  message_count : Nat
  file_number : Nat
deriving DecidableEq

/-- Result of a manager operation: success, a propagated I/O error (the
state at the early `?` return), or a panic (an `unwrap` on `None`). -/
inductive FmResult (α : Type) where
  | ok (s : α)
  | ioError (s : α)
  | panic

/-- Pointwise map update (`HashMap` insert with `some`, remove with
`none`). -/
def setFn {α : Type} (m : String → Option α) (k : String) (v : Option α) :
    String → Option α :=
  fun t => if t = k then v else m t

/-- The manager state `struct TopicFileManager`. -/
@[ext]
structure TopicFileManager where
  files : String → Option FileEntry
  base_timestamps : String → Option String
  all_topics_file : Option FileEntry
  all_topics_base_timestamp : Option String
  timeout_secs : Nat
  max_messages_per_file : Nat
  stats_enabled : Bool
  stats_interval_secs : Nat
  all_topics_enabled : Bool
  created : List CreatedFile

/-- `TopicFileManager::new`: empty maps, the 100,000 message cap, no files
created yet. -/
def TopicFileManager.new (timeout_secs : Nat) (stats_enabled : Bool)
    (stats_interval_secs : Nat) (all_topics_enabled : Bool) :
    TopicFileManager :=
  { files := fun _ => none
    base_timestamps := fun _ => none
    all_topics_file := none
    all_topics_base_timestamp := none
    timeout_secs := timeout_secs
    max_messages_per_file := 100000
    stats_enabled := stats_enabled
    stats_interval_secs := stats_interval_secs
    all_topics_enabled := all_topics_enabled
    created := [] }

/-- The tail of `get_or_create_file`'s creation branch: exclusive-create
the file at the path built from the stream identity (an existing path is
the modelled I/O error, propagated by `?` with the state mutated so far),
then insert the fresh stream entry with count 0. -/
def TopicFileManager.openTopicFile (s : TopicFileManager) (topic : String)
    (now fileNumber : Nat) (ts date : String) : FmResult TopicFileManager :=
  if CreatedFile.topicFile topic date ts fileNumber ∈ s.created then
    FmResult.ioError s
  else
    FmResult.ok { s with
      created := s.created ++ [CreatedFile.topicFile topic date ts fileNumber]
      files := setFn s.files topic
        (some ⟨CreatedFile.topicFile topic date ts fileNumber, now, 0,
          fileNumber⟩) }

/-- `TopicFileManager::get_or_create_file` (lines 88-161): on an absent
entry, create a stream with a fresh base timestamp (recorded in
`base_timestamps` before the open); on idle timeout, clear the base
timestamp, drop the entry and create a fresh-timestamp stream; on reaching
the message cap, drop the entry and create a stream with file number + 1
under the existing base timestamp (`unwrap`: panics were it absent);
otherwise touch the entry — update its last access AND increment its
message count — and reuse it. -/
def TopicFileManager.get_or_create_file (s : TopicFileManager)
    (topic : String) (now : Nat) (freshTs date : String) :
    FmResult TopicFileManager :=
  match s.files topic with
  | none =>
      TopicFileManager.openTopicFile
        { s with base_timestamps := setFn s.base_timestamps topic (some freshTs) }
        topic now 0 freshTs date
  | some e =>
      if now - e.last_access > s.timeout_secs then
        TopicFileManager.openTopicFile
          { s with
            base_timestamps :=
              setFn (setFn s.base_timestamps topic none) topic (some freshTs)
            files := setFn s.files topic none }
          topic now 0 freshTs date
      else if e.message_count ≥ s.max_messages_per_file then
        match s.base_timestamps topic with
        | none => FmResult.panic
        | some baseTs =>
            TopicFileManager.openTopicFile
              { s with files := setFn s.files topic none }
              topic now (e.file_number + 1) baseTs date
      else
        FmResult.ok { s with
          files := setFn s.files topic (some { e with
            last_access := now, message_count := e.message_count + 1 }) }

/-- The creation tail of `get_or_create_all_topics_file`, mirroring
`openTopicFile` for the aggregate stream. -/
def TopicFileManager.openAllTopicsFile (s : TopicFileManager)
    (now fileNumber : Nat) (ts date : String) :
    FmResult (TopicFileManager × Bool) :=
  if CreatedFile.allTopicsFile date ts fileNumber ∈ s.created then
    FmResult.ioError (s, false)
  else
    FmResult.ok ({ s with
      created := s.created ++ [CreatedFile.allTopicsFile date ts fileNumber]
      all_topics_file := some ⟨CreatedFile.allTopicsFile date ts fileNumber,
        now, 0, fileNumber⟩ }, true)

/-- `TopicFileManager::get_or_create_all_topics_file` (lines 164-238):
`Ok(None)` — modelled as the `false` flag — when the aggregate stream is
disabled; otherwise the same rotation policy as the per-topic streams,
against the single aggregate entry and its base timestamp. -/
def TopicFileManager.get_or_create_all_topics_file (s : TopicFileManager)
    (now : Nat) (freshTs date : String) : FmResult (TopicFileManager × Bool) :=
  if s.all_topics_enabled = false then FmResult.ok (s, false)
  else
    match s.all_topics_file with
    | none =>
        TopicFileManager.openAllTopicsFile
          { s with all_topics_base_timestamp := some freshTs }
          now 0 freshTs date
    | some e =>
        if now - e.last_access > s.timeout_secs then
          TopicFileManager.openAllTopicsFile
            { s with
              all_topics_base_timestamp := some freshTs
              all_topics_file := none }
            now 0 freshTs date
        else if e.message_count ≥ s.max_messages_per_file then
          match s.all_topics_base_timestamp with
          | none => FmResult.panic
          | some baseTs =>
              TopicFileManager.openAllTopicsFile
                { s with all_topics_file := none }
                now (e.file_number + 1) baseTs date
        else
          FmResult.ok ({ s with all_topics_file := some { e with
            last_access := now, message_count := e.message_count + 1 } }, true)

/-- The per-topic increment block of `write_message` (lines 289-293):
`if let Some((_, _, last_access, message_count, _)) = self.files.get_mut(topic)`
then touch the access time and add one to the count. -/
def TopicFileManager.bumpTopicCount (s : TopicFileManager) (topic : String)
    (now : Nat) : TopicFileManager :=
  match s.files topic with
  | some e => { s with files := setFn s.files topic (some { e with
      last_access := now, message_count := e.message_count + 1 }) }
  | none => s

/-- The aggregate-stream increment block of `write_message`
(lines 295-299). -/
def TopicFileManager.bumpAllTopicsCount (s : TopicFileManager) (now : Nat) :
    TopicFileManager :=
  match s.all_topics_file with
  | some e => { s with all_topics_file := some { e with
      last_access := now, message_count := e.message_count + 1 } }
  | none => s

/-- `TopicFileManager::write_message` (lines 273-308): resolve (or create)
the per-topic stream and append the record; resolve the aggregate stream
and append there when enabled; then increment the per-topic entry's message
count and last access, and likewise the aggregate entry's.  (The appended
record text and the statistics forwarding write outside the modelled state;
both `Instant::now()` calls of the increment block fall in the same second
as the resolve, hence the single `now`.) -/
def TopicFileManager.write_message (s : TopicFileManager) (topic : String)
    (now : Nat) (freshTs date : String) : FmResult TopicFileManager :=
  match s.get_or_create_file topic now freshTs date with
  | FmResult.panic => FmResult.panic
  | FmResult.ioError s1 => FmResult.ioError s1
  | FmResult.ok s1 =>
      match s1.get_or_create_all_topics_file now freshTs date with
      | FmResult.panic => FmResult.panic
      | FmResult.ioError p => FmResult.ioError p.1
      | FmResult.ok (s2, _) =>
          FmResult.ok ((s2.bumpTopicCount topic now).bumpAllTopicsCount now)

/-- `TopicFileManager::cleanup_timeout_files` (lines 240-270): drop every
per-topic entry whose idle time exceeds the timeout and clear those topics'
base timestamps; same for the aggregate entry and its base timestamp. -/
def TopicFileManager.cleanup_timeout_files (s : TopicFileManager)
    (now : Nat) : TopicFileManager :=
  { s with
    files := fun t =>
      match s.files t with
      | some e => if now - e.last_access ≤ s.timeout_secs then some e else none
      | none => none
    base_timestamps := fun t =>
      match s.files t with
      | some e =>
          if now - e.last_access ≤ s.timeout_secs then s.base_timestamps t
          else none
      | none => s.base_timestamps t
    all_topics_file :=
      match s.all_topics_file with
      | some e => if now - e.last_access ≤ s.timeout_secs then some e else none
      | none => none
    all_topics_base_timestamp :=
      match s.all_topics_file with
      | some e =>
          if now - e.last_access ≤ s.timeout_secs then
            s.all_topics_base_timestamp
          else none
      | none => s.all_topics_base_timestamp }

/-- `n` consecutive `write_message` calls for one topic, all within the
same second (`now = 0`, so no idle gap), propagating errors. -/
def writeNTimes (s : TopicFileManager) (topic freshTs date : String) :
    Nat → FmResult TopicFileManager
  | 0 => FmResult.ok s
  | n + 1 =>
      match writeNTimes s topic freshTs date n with
      | FmResult.ok s' => s'.write_message topic 0 freshTs date
      | r => r

/-- The manager state with a single open stream for `topic` holding
`c` counted messages: what `TopicFileManager.new 30 false 60 false`
reaches after its first writes for `topic` (file number 0, base timestamp
`ts`, one created file). -/
def oneStreamState (topic ts date : String) (c : Nat) : TopicFileManager :=
  { files := setFn (fun _ => none) topic
      (some ⟨CreatedFile.topicFile topic date ts 0, 0, c, 0⟩)
    base_timestamps := setFn (fun _ => none) topic (some ts)
    all_topics_file := none
    all_topics_base_timestamp := none
    timeout_secs := 30
    max_messages_per_file := 100000
    stats_enabled := false
    stats_interval_secs := 60
    all_topics_enabled := false
    created := [CreatedFile.topicFile topic date ts 0] }

/-! ## Theorems -/

/-- Decoding an alphabet character inverts encoding a 6-bit value. -/
theorem charSextet_sextetChar : ∀ n, n < 64 → charSextet (sextetChar n) = some n := by
  decide

/-- No alphabet character is the padding character. -/
theorem sextetChar_ne_pad : ∀ n, n < 64 → sextetChar n ≠ '=' := by
  decide

/-- C5: for every payload byte sequence `P`, decoding the stored base64
text encoding of `P` yields exactly `P`: the `msg_b64` field written by the
recorder round-trips byte-exactly through the decoder used by replay and by
the statistics engine. -/
theorem c5_base64_roundtrip (P : List Nat) (h : ∀ b ∈ P, b < 256) :
    base64Decode (base64Encode P) = some P := by
  induction P using base64Encode.induct with
  | case1 => rfl
  | case2 b0 =>
      have hb0 : b0 < 256 := h b0 (by simp)
      have c1 := charSextet_sextetChar (b0 / 4) (by omega)
      have c2 := charSextet_sextetChar (b0 % 4 * 16) (by omega)
      simp [base64Encode, base64Decode, c1, c2, Nat.mul_mod_left]
      omega
  | case3 b0 b1 =>
      have hb0 : b0 < 256 := h b0 (by simp)
      have hb1 : b1 < 256 := h b1 (by simp)
      have c1 := charSextet_sextetChar (b0 / 4) (by omega)
      have c2 := charSextet_sextetChar (b0 % 4 * 16 + b1 / 16) (by omega)
      have c3 := charSextet_sextetChar (b1 % 16 * 4) (by omega)
      have n3 := sextetChar_ne_pad (b1 % 16 * 4) (by omega)
      simp [base64Encode, base64Decode, c1, c2, c3, n3]
      constructor
      · omega
      · omega
  | case4 b0 b1 b2 rest ih =>
      have hb0 : b0 < 256 := h b0 (by simp)
      have hb1 : b1 < 256 := h b1 (by simp)
      have hb2 : b2 < 256 := h b2 (by simp)
      have hrest : ∀ b ∈ rest, b < 256 := fun b hb => h b (by simp [hb])
      have c1 := charSextet_sextetChar (b0 / 4) (by omega)
      have c2 := charSextet_sextetChar (b0 % 4 * 16 + b1 / 16) (by omega)
      have c3 := charSextet_sextetChar (b1 % 16 * 4 + b2 / 64) (by omega)
      have c4 := charSextet_sextetChar (b2 % 64) (by omega)
      have n3 := sextetChar_ne_pad (b1 % 16 * 4 + b2 / 64) (by omega)
      have n4 := sextetChar_ne_pad (b2 % 64) (by omega)
      simp [base64Encode, base64Decode, c1, c2, c3, c4, n3, n4, ih hrest]
      omega

/-- C5 witness: the round-trip at a concrete 5-byte payload. -/
theorem c5_base64_roundtrip_witness :
    (∀ b ∈ [77, 0, 255, 128, 1], b < 256) ∧
    base64Decode (base64Encode [77, 0, 255, 128, 1]) = some [77, 0, 255, 128, 1] :=
  ⟨by decide, c5_base64_roundtrip [77, 0, 255, 128, 1] (by decide)⟩

/-- C4 counterexample: a record line that parses as JSON but whose
`msg_b64` fails base64 decoding makes the replay task panic
(`base64::decode(..).unwrap()`), which is not a skip — refuting the claim
that an undecodable payload is skipped. -/
theorem c4_counterexample :
    processLine 1 (-1) (some ⟨10, 0, false, "t", "!!!"⟩) = LineOutcome.panic ∧
    LineOutcome.panic ≠ LineOutcome.skip := by
  constructor
  · rfl
  · decide

/-- C4 (amended): during replay, a record line of malformed JSON is
skipped, and an out-of-range QoS (≥ 3) is coerced to "at most once"
instead of aborting; but a record whose payload fails base64 decoding
panics (aborting the replay task) rather than being skipped. -/
theorem c4_amended_replay_error_handling (speed previous : ℚ)
    (msg : MqttMessage) :
    processLine speed previous none = LineOutcome.skip ∧
    (base64Decode msg.msg_b64.data = none →
      processLine speed previous (some msg) = LineOutcome.panic) ∧
    (∀ payload, base64Decode msg.msg_b64.data = some payload → 3 ≤ msg.qos →
      processLine speed previous (some msg) =
        LineOutcome.emit (replaySleepMs speed previous msg.time) msg.topic
          RQoS.atMostOnce payload msg.time) := by
  refine ⟨rfl, ?_, ?_⟩
  · intro hdec
    simp [processLine, hdec]
  · intro payload hdec hqos
    obtain ⟨k, hk⟩ : ∃ k, msg.qos = k + 3 := ⟨msg.qos - 3, by omega⟩
    simp [processLine, hdec, hk, qosOf]

/-- C4 witness: a malformed line is skipped and a QoS-7 record with a
decodable payload is emitted at QoS "at most once". -/
theorem c4_amended_witness :
    processLine 1 (-1) none = LineOutcome.skip ∧
    processLine 1 (-1) (some ⟨10, 7, false, "t", "AA=="⟩) =
      LineOutcome.emit 0 "t" RQoS.atMostOnce [0] 10 := by
  refine ⟨(c4_amended_replay_error_handling 1 (-1) ⟨10, 7, false, "t", "AA=="⟩).1, ?_⟩
  have h := (c4_amended_replay_error_handling 1 (-1)
    ⟨10, 7, false, "t", "AA=="⟩).2.2 [0] (by decide) (by decide)
  rw [h]
  norm_num [replaySleepMs]

/-- A `u64` cast of a floor is unchanged by first clamping at zero. -/
theorem toNat_floor_max_zero (x : ℚ) :
    (Int.floor (max 0 x)).toNat = (Int.floor x).toNat := by
  rcases le_total x 0 with hx | hx
  · have h1 : Int.floor x ≤ 0 := by simpa using Int.floor_le_floor hx
    rw [max_eq_left hx, Int.floor_zero]
    omega
  · rw [max_eq_right hx]

/-- Once the pacing variable is nonnegative, the code's sleeps coincide
with the specification's formula. -/
theorem replaySleeps_eq_specSleeps (speed : ℚ) :
    ∀ (ms : List MqttMessage) (p : ℚ), (∀ m ∈ ms, 0 ≤ m.time) → 0 ≤ p →
      replaySleeps speed p ms = specSleeps speed (some p) ms
  | [], _, _, _ => rfl
  | m :: rest, p, hts, hp => by
      have hm : 0 ≤ m.time := hts m (by simp)
      simp only [replaySleeps, specSleeps, replaySleepMs]
      rw [if_neg (not_lt.mpr hp), toNat_floor_max_zero]
      exact congrArg₂ List.cons rfl
        (replaySleeps_eq_specSleeps speed rest m.time
          (fun x hx => hts x (by simp [hx])) hm)

/-- C6 counterexample: with records at times −2 and 0 and speed 1, the code
sleeps 0 ms before the second record (the negative previous time
re-triggers the `previous < 0` reset), while the claimed formula
`max(0, (0 − (−2))·1000/1)` demands 2000 ms. -/
theorem c6_counterexample :
    replaySleeps 1 (-1)
        [⟨-2, 0, false, "t", "AA=="⟩, ⟨0, 0, false, "t", "AA=="⟩] = [0, 0] ∧
    specSleeps 1 none
        [⟨-2, 0, false, "t", "AA=="⟩, ⟨0, 0, false, "t", "AA=="⟩] = [0, 2000] := by
  constructor
  · norm_num [replaySleeps, replaySleepMs, Int.toNat_ofNat]
  · norm_num [specSleeps]
    rfl

/-- C6 (amended): provided every record time is nonnegative (as the
recorder produces), one pass emits the first record with no sleep and each
subsequent record after `max(0, (record.time − previous.time)·1000/speed)`
milliseconds, the floor at millisecond granularity; records at times 10 and
12 at speed 2 give exactly the 1000 ms delay.  (When a record carries a
negative time the next record is instead emitted with no sleep, because the
code re-runs its `previous < 0` initialisation.) -/
theorem c6_amended_pacing (speed : ℚ) (ms : List MqttMessage)
    (hspeed : 0 < speed) (hts : ∀ m ∈ ms, 0 ≤ m.time) :
    replaySleeps speed (-1) ms = specSleeps speed none ms ∧
    replaySleeps 2 (-1)
      [⟨10, 0, false, "t", "AA=="⟩, ⟨12, 0, false, "t", "AA=="⟩] = [0, 1000] := by
  constructor
  · cases ms with
    | nil => rfl
    | cons m rest =>
        have hm : 0 ≤ m.time := hts m (by simp)
        simp only [replaySleeps, specSleeps, replaySleepMs]
        rw [if_pos (by norm_num : (-1 : ℚ) < 0)]
        simp only [sub_self, zero_mul, zero_div, Int.floor_zero, Int.toNat_zero]
        exact congrArg (List.cons 0)
          (replaySleeps_eq_specSleeps speed rest m.time
            (fun x hx => hts x (by simp [hx])) hm)
  · norm_num [replaySleeps, replaySleepMs]
    rfl

/-- C6 witness: the amended pacing applied to the spec's concrete example. -/
theorem c6_amended_pacing_witness :
    replaySleeps 2 (-1)
        [⟨10, 0, false, "t", "AA=="⟩, ⟨12, 0, false, "t", "AA=="⟩] =
      specSleeps 2 none
        [⟨10, 0, false, "t", "AA=="⟩, ⟨12, 0, false, "t", "AA=="⟩] ∧
    specSleeps 2 none
        [⟨10, 0, false, "t", "AA=="⟩, ⟨12, 0, false, "t", "AA=="⟩] = [0, 1000] :=
  ⟨(c6_amended_pacing 2
      [⟨10, 0, false, "t", "AA=="⟩, ⟨12, 0, false, "t", "AA=="⟩]
      (by norm_num) (by norm_num [List.forall_mem_cons])).1,
   by norm_num [specSleeps]; rfl⟩

/-- Looking up a key just written returns the written value. -/
theorem lookupAssoc_updateAssoc_self {α : Type} (l : List (String × α)) (k : String) (v : α) :
    lookupAssoc (updateAssoc l k v) k = some v := by
  induction l with
  | nil => simp [updateAssoc, lookupAssoc]
  | cons p rest ih =>
      by_cases h : p.1 = k
      · simp [updateAssoc, lookupAssoc, h]
      · simp [updateAssoc, lookupAssoc, h, ih]

/-- Writing back the value already stored at a key leaves the list
unchanged. -/
theorem updateAssoc_lookup_id {α : Type} (l : List (String × α)) (k : String) (v : α)
    (h : lookupAssoc l k = some v) : updateAssoc l k v = l := by
  induction l with
  | nil => simp [lookupAssoc] at h
  | cons p rest ih =>
      by_cases hk : p.1 = k
      · simp [lookupAssoc, hk] at h
        cases p with
        | mk k' v' =>
            simp at hk
            simp [updateAssoc, hk]
            simp [hk] at h
            exact h.symm
      · simp [lookupAssoc, hk] at h
        cases p with
        | mk k' v' =>
            simp at hk
            simp [updateAssoc, hk, ih h]

/-- A successful lookup means the key occurs in the key list. -/
theorem lookupAssoc_some_mem_fst {α : Type} (l : List (String × α)) (k : String) (v : α)
    (h : lookupAssoc l k = some v) : k ∈ l.map Prod.fst := by
  induction l with
  | nil => simp [lookupAssoc] at h
  | cons p rest ih =>
      by_cases hk : p.1 = k
      · simp [hk]
      · simp [lookupAssoc, hk] at h
        simp [ih h]

/-- The keys of a key-preserving `filterMap` form a sublist of the input
keys. -/
theorem map_fst_filterMap_sublist {β : Type} (l : List String)
    (g : String → Option (String × β)) (hg : ∀ k p, g k = some p → p.1 = k) :
    ((l.filterMap g).map Prod.fst).Sublist l := by
  induction l with
  | nil => simp
  | cons a rest ih =>
      cases hga : g a with
      | none => simp [List.filterMap_cons, hga]; exact ih.cons a
      | some p =>
          simp [List.filterMap_cons, hga, hg a p hga]
          exact ih

/-- C7: a flush with no accumulated data writes nothing and leaves the
state untouched; otherwise it emits exactly one line whose key-paths are in
lexicographic order, carrying for every stored accumulator its statistic
formatted to 3 decimals, and clears the accumulators and restarts the
window.  A numeric accumulator's statistic is the population variance
(samples 1, 3, 5 give 8/3, formatted 2.667); a string or boolean
accumulator's is its count of distinct values. -/
theorem c7_statistics_flush (s : TopicStats) (now : Nat) :
    (s.data = [] → s.calculate_and_write_stats now = (s, none)) ∧
    (s.data ≠ [] → ∃ line,
      s.calculate_and_write_stats now =
        ({ s with data := [], last_stats_time := now, stats_start_time := now },
          some line) ∧
      (line.map Prod.fst).Sorted (· ≤ ·) ∧
      (∀ k vt, lookupAssoc s.data k = some vt →
        (k, format3 vt.calculate_stat) ∈ line)) ∧
    JsonValueType.calculate_stat (JsonValueType.number [1, 3, 5]) = 8 / 3 ∧
    format3 (8 / 3) = 2667 / 1000 ∧
    JsonValueType.calculate_stat (JsonValueType.string ["x", "y", "x"]) = 2 ∧
    JsonValueType.calculate_stat (JsonValueType.boolean [true, false, true]) = 2 := by
  refine ⟨?_, ?_, ?_, ?_, ?_, ?_⟩
  · intro h
    simp [TopicStats.calculate_and_write_stats, h]
  · intro h
    simp only [TopicStats.calculate_and_write_stats, if_neg h]
    refine ⟨_, rfl, ?_, ?_⟩
    · have hg : ∀ k p, ((lookupAssoc s.data k).map
          (fun vt => (k, format3 vt.calculate_stat)) : Option (String × ℚ)) =
            some p → p.1 = k := by
        intro k p hp
        cases hl : lookupAssoc s.data k with
        | none => rw [hl] at hp; exact Option.noConfusion hp
        | some vt =>
            rw [hl] at hp
            rw [← Option.some.inj hp]
      have hsorted : (List.insertionSort (fun a b => a ≤ b)
          (s.data.map Prod.fst)).Sorted (fun a b => a ≤ b) :=
        List.sorted_insertionSort (fun a b => a ≤ b) (s.data.map Prod.fst)
      exact List.Pairwise.sublist (map_fst_filterMap_sublist _ _ hg) hsorted
    · intro k vt hk
      have hmem : k ∈ List.insertionSort (fun a b => a ≤ b)
          (s.data.map Prod.fst) := by
        rw [List.mem_insertionSort]
        exact lookupAssoc_some_mem_fst s.data k vt hk
      exact List.mem_filterMap.mpr ⟨k, hmem, by simp [hk]⟩
  · simp [JsonValueType.calculate_stat]
    norm_num
  · rw [format3, round_eq]
    norm_num
  · have hd : (List.dedup ["x", "y", "x"]).length = 2 := by decide
    simp [JsonValueType.calculate_stat, hd]
  · have hd : (List.dedup [true, false, true]).length = 2 := by decide
    simp [JsonValueType.calculate_stat, hd]

/-- C7 witness: the empty-accumulator no-op and the concrete variance, via
the theorem. -/
theorem c7_statistics_flush_witness :
    TopicStats.calculate_and_write_stats ⟨[], 0, 0, 60⟩ 7 = (⟨[], 0, 0, 60⟩, none) ∧
    JsonValueType.calculate_stat (JsonValueType.number [1, 3, 5]) = 8 / 3 :=
  ⟨(c7_statistics_flush ⟨[], 0, 0, 60⟩ 7).1 rfl,
   (c7_statistics_flush ⟨[("a", JsonValueType.number [1, 3, 5])], 0, 0, 60⟩ 5).2.2.1⟩

/-- C8: the first value observed at a key-path fixes the accumulator's
type (its tag equals the value's leaf tag), and a later value of a
different JSON type arriving at the same path leaves the whole state
literally unchanged — no type change, no sample change, no error. -/
theorem c8_first_type_wins (s : TopicStats) (k : String) (v : JsonValue) :
    (lookupAssoc s.data k = none →
      lookupAssoc (s.add_value_to_stats k v).data k =
        some ((JsonValueType.ofValue v).add_value v) ∧
      ((JsonValueType.ofValue v).add_value v).tag = v.leafTag) ∧
    (∀ e, lookupAssoc s.data k = some e → e.tag ≠ v.leafTag →
      s.add_value_to_stats k v = s) := by
  constructor
  · intro h
    constructor
    · simp [TopicStats.add_value_to_stats, h, lookupAssoc_updateAssoc_self]
    · cases v <;> rfl
  · intro e he hne
    have hadd : e.add_value v = e := by
      cases e <;> cases v <;> first | rfl | (exfalso; exact hne rfl)
    simp [TopicStats.add_value_to_stats, he, hadd, updateAssoc_lookup_id s.data k e he]

/-- C8 witness: a string arriving at a number-bound key-path changes
nothing. -/
theorem c8_first_type_wins_witness :
    TopicStats.add_value_to_stats ⟨[("a", JsonValueType.number [1])], 0, 0, 60⟩ "a"
        (JsonValue.str "x") =
      ⟨[("a", JsonValueType.number [1])], 0, 0, 60⟩ :=
  (c8_first_type_wins ⟨[("a", JsonValueType.number [1])], 0, 0, 60⟩ "a"
    (JsonValue.str "x")).2 (JsonValueType.number [1]) (by rfl) (by decide)

/-- C3 counter-evidence (code bug): the per-topic filename with a sequence
suffix, `mqtt-recorder-sensor-20240115-093045-1.json`, decodes under the
claimed grammar to 2024-01-15 09:30:45, inside the supplied
`[2024-01-15 00:00, ∞)` bound — yet the source's retain closure decodes
nothing from it (its numbered branch joins THREE `-`-separated parts,
`sensor-20240115-093045`, which can never parse as `%Y%m%d-%H%M%S`), so
`get_files_in_range` drops the file, contradicting the code's own comment
enumerating that grammar. -/
theorem c3_numbered_file_dropped :
    (specGrammarTimestamp "mqtt-recorder-sensor-20240115-093045-1.json").isSome = true ∧
    (specGrammarTimestamp "mqtt-recorder-sensor-20240115-093045-1.json").map
        (inRangeB (parseBoundStr "2024-01-15 00:00") none) = some true ∧
    fileDt "mqtt-recorder-sensor-20240115-093045-1.json" = none ∧
    get_files_in_range ["mqtt-recorder-sensor-20240115-093045-1.json"]
      (some "2024-01-15 00:00") none = [] := by
  refine ⟨?_, ?_, ?_, ?_⟩ <;> rfl

/-- With neither bound parsed, the retain closure keeps exactly the
filenames that decode. -/
theorem keepFile_none_none (p : String) : keepFile none none p = (fileDt p).isSome := by
  unfold keepFile
  cases fileDt p <;> rfl

/-- C10: when a supplied bound string does not parse as
`%Y-%m-%d %H:%M`, the filename filter still runs — the result is exactly
the decodable `.json` files, sorted — so the unparseable bound imposes no
time constraint, while every file whose name the codec cannot decode is
excluded. -/
theorem c10_unparseable_bound (paths : List String) (b : String) (e : Option String)
    (hb : parseBoundStr b = none) (he : e.bind parseBoundStr = none) :
    get_files_in_range paths (some b) e =
      List.insertionSort (fun a b => a ≤ b)
        ((paths.filter (fun p => pathExtension p.data = some "json".data)).filter
          (fun p => (fileDt p).isSome)) ∧
    (∀ p, fileDt p = none → p ∉ get_files_in_range paths (some b) e) := by
  have h1 : get_files_in_range paths (some b) e =
      List.insertionSort (fun a b => a ≤ b)
        ((paths.filter (fun p => pathExtension p.data = some "json".data)).filter
          (keepFile none none)) := by
    unfold get_files_in_range
    simp [hb, he]
  constructor
  · rw [h1]
    congr 1
    apply List.filter_congr
    intro p _
    exact keepFile_none_none p
  · intro p hp hmem
    rw [h1, List.mem_insertionSort] at hmem
    have hkeep := List.of_mem_filter hmem
    rw [keepFile_none_none p, hp] at hkeep
    exact Bool.noConfusion hkeep

/-- C10 witness: with the unparseable bound `"nonsense"`, a standard
recording file survives unconstrained and an undecodable name is dropped. -/
theorem c10_unparseable_bound_witness :
    get_files_in_range ["a/mqtt-recorder-2024-01-15-0930.json", "junk.json"]
        (some "nonsense") none = ["a/mqtt-recorder-2024-01-15-0930.json"] ∧
    "junk.json" ∉ get_files_in_range
        ["a/mqtt-recorder-2024-01-15-0930.json", "junk.json"]
        (some "nonsense") none := by
  have h := c10_unparseable_bound
    ["a/mqtt-recorder-2024-01-15-0930.json", "junk.json"] "nonsense" none
    (by rfl) (by rfl)
  exact ⟨h.1.trans (by rfl), h.2 "junk.json" (by rfl)⟩

/-- Pointwise view of a map update. -/
@[simp] theorem setFn_apply {α : Type} (m : String → Option α) (k : String)
    (v : Option α) (t : String) : setFn m k v t = if t = k then v else m t := rfl

/-- The manager invariant of C9: every topic with an open per-topic stream
has a stored base timestamp, and likewise for the aggregate stream. -/
def TfmInv (s : TopicFileManager) : Prop :=
  (∀ t, (s.files t).isSome → (s.base_timestamps t).isSome) ∧
  (s.all_topics_file.isSome → s.all_topics_base_timestamp.isSome)

/-- A per-topic operation result is safe: it did not panic and its state
(normal or error) satisfies the invariant. -/
def FmSafe : FmResult TopicFileManager → Prop
  | FmResult.ok s => TfmInv s
  | FmResult.ioError s => TfmInv s
  | FmResult.panic => False

/-- Safety for the aggregate-stream operation result. -/
def FmSafePair : FmResult (TopicFileManager × Bool) → Prop
  | FmResult.ok p => TfmInv p.1
  | FmResult.ioError p => TfmInv p.1
  | FmResult.panic => False

/-- A fresh manager satisfies the invariant. -/
theorem tfmInv_new (a : Nat) (b : Bool) (c : Nat) (d : Bool) :
    TfmInv (TopicFileManager.new a b c d) := by
  constructor
  · intro t ht
    simp [TopicFileManager.new] at ht
  · intro ht
    simp [TopicFileManager.new] at ht

/-- The creation tail preserves the invariant when the topic has a stored
base timestamp. -/
theorem fmSafe_openTopicFile (s : TopicFileManager) (topic : String)
    (now n : Nat) (ts date : String) (hInv : TfmInv s)
    (hts : (s.base_timestamps topic).isSome) :
    FmSafe (s.openTopicFile topic now n ts date) := by
  unfold TopicFileManager.openTopicFile
  split
  · exact hInv
  · refine ⟨?_, hInv.2⟩
    intro t ht
    by_cases h : t = topic
    · rw [h]
      exact hts
    · apply hInv.1 t
      simpa [setFn, h] using ht

/-- `get_or_create_file` preserves the invariant and never panics under
it. -/
theorem fmSafe_get_or_create_file (s : TopicFileManager) (topic : String)
    (now : Nat) (ts date : String) (hInv : TfmInv s) :
    FmSafe (s.get_or_create_file topic now ts date) := by
  unfold TopicFileManager.get_or_create_file
  cases hf : s.files topic with
  | none =>
      apply fmSafe_openTopicFile
      · refine ⟨?_, hInv.2⟩
        intro t ht
        by_cases h : t = topic
        · simp [setFn, h]
        · simp only [setFn_apply, if_neg h]
          exact hInv.1 t ht
      · simp [setFn]
  | some e =>
      dsimp only
      split
      · apply fmSafe_openTopicFile
        · refine ⟨?_, hInv.2⟩
          intro t ht
          by_cases h : t = topic
          · simp [setFn, h] at ht
          · simp only [setFn_apply, if_neg h] at ht ⊢
            exact hInv.1 t ht
        · simp [setFn]
      · split
        · have hbs : (s.base_timestamps topic).isSome :=
            hInv.1 topic (by simp [hf])
          obtain ⟨bts, hbts⟩ := Option.isSome_iff_exists.mp hbs
          rw [hbts]
          apply fmSafe_openTopicFile
          · refine ⟨?_, hInv.2⟩
            intro t ht
            by_cases h : t = topic
            · simp [setFn, h] at ht
            · simp only [setFn_apply, if_neg h] at ht
              exact hInv.1 t ht
          · simp [hbts]
        · refine ⟨?_, hInv.2⟩
          intro t ht
          by_cases h : t = topic
          · rw [h]
            exact hInv.1 topic (by simp [hf])
          · simp only [setFn_apply, if_neg h] at ht
            exact hInv.1 t ht

/-- The aggregate creation tail preserves the invariant when the aggregate
base timestamp is stored. -/
theorem fmSafePair_openAllTopicsFile (s : TopicFileManager)
    (now n : Nat) (ts date : String) (hInv : TfmInv s)
    (hts : s.all_topics_base_timestamp.isSome) :
    FmSafePair (s.openAllTopicsFile now n ts date) := by
  unfold TopicFileManager.openAllTopicsFile
  split
  · exact hInv
  · exact ⟨hInv.1, fun _ => hts⟩

/-- `get_or_create_all_topics_file` preserves the invariant and never
panics under it. -/
theorem fmSafePair_get_or_create_all_topics_file (s : TopicFileManager)
    (now : Nat) (ts date : String) (hInv : TfmInv s) :
    FmSafePair (s.get_or_create_all_topics_file now ts date) := by
  unfold TopicFileManager.get_or_create_all_topics_file
  split
  · exact hInv
  · cases ha : s.all_topics_file with
    | none =>
        apply fmSafePair_openAllTopicsFile
        · exact ⟨hInv.1, fun _ => by simp⟩
        · simp
    | some e =>
        dsimp only
        split
        · apply fmSafePair_openAllTopicsFile
          · exact ⟨hInv.1, fun h => by simp at h⟩
          · simp
        · split
          · have hbs : s.all_topics_base_timestamp.isSome :=
              hInv.2 (by simp [ha])
            obtain ⟨bts, hbts⟩ := Option.isSome_iff_exists.mp hbs
            rw [hbts]
            apply fmSafePair_openAllTopicsFile
            · exact ⟨hInv.1, fun h => by simp at h⟩
            · simp [hbts]
          · exact ⟨hInv.1, fun _ => hInv.2 (by simp [ha])⟩

/-- The per-topic increment block preserves the invariant. -/
theorem tfmInv_bumpTopicCount (s : TopicFileManager) (topic : String)
    (now : Nat) (hInv : TfmInv s) : TfmInv (s.bumpTopicCount topic now) := by
  unfold TopicFileManager.bumpTopicCount
  cases hf : s.files topic with
  | none => exact hInv
  | some e =>
      refine ⟨?_, hInv.2⟩
      intro t ht
      by_cases h : t = topic
      · rw [h]
        exact hInv.1 topic (by simp [hf])
      · simp only [setFn_apply, if_neg h] at ht
        exact hInv.1 t ht

/-- The aggregate increment block preserves the invariant. -/
theorem tfmInv_bumpAllTopicsCount (s : TopicFileManager) (now : Nat)
    (hInv : TfmInv s) : TfmInv (s.bumpAllTopicsCount now) := by
  unfold TopicFileManager.bumpAllTopicsCount
  cases ha : s.all_topics_file with
  | none => exact hInv
  | some e => exact ⟨hInv.1, fun _ => hInv.2 (by simp [ha])⟩

/-- `write_message` preserves the invariant and never panics under it. -/
theorem fmSafe_write_message (s : TopicFileManager) (topic : String)
    (now : Nat) (ts date : String) (hInv : TfmInv s) :
    FmSafe (s.write_message topic now ts date) := by
  unfold TopicFileManager.write_message
  have h1 := fmSafe_get_or_create_file s topic now ts date hInv
  cases hres : s.get_or_create_file topic now ts date with
  | panic => rw [hres] at h1; exact h1.elim
  | ioError s1 => rw [hres] at h1; exact h1
  | ok s1 =>
      rw [hres] at h1
      dsimp only
      have h2 := fmSafePair_get_or_create_all_topics_file s1 now ts date h1
      cases hres2 : s1.get_or_create_all_topics_file now ts date with
      | panic => rw [hres2] at h2; exact h2.elim
      | ioError p => rw [hres2] at h2; exact h2
      | ok p =>
          rw [hres2] at h2
          exact tfmInv_bumpAllTopicsCount _ now
            (tfmInv_bumpTopicCount p.1 topic now h2)

/-- `cleanup_timeout_files` removes the base timestamps exactly of the
dropped streams, so the invariant is preserved. -/
theorem tfmInv_cleanup_timeout_files (s : TopicFileManager) (now : Nat)
    (hInv : TfmInv s) : TfmInv (s.cleanup_timeout_files now) := by
  constructor
  · intro t ht
    simp only [TopicFileManager.cleanup_timeout_files] at ht ⊢
    cases hf : s.files t with
    | none => rw [hf] at ht; simp at ht
    | some e =>
        rw [hf] at ht
        dsimp only at ht ⊢
        by_cases hk : now - e.last_access ≤ s.timeout_secs
        · rw [if_pos hk]
          exact hInv.1 t (by simp [hf])
        · rw [if_neg hk] at ht
          simp at ht
  · intro ht
    simp only [TopicFileManager.cleanup_timeout_files] at ht ⊢
    cases ha : s.all_topics_file with
    | none => rw [ha] at ht; simp at ht
    | some e =>
        rw [ha] at ht
        dsimp only at ht ⊢
        by_cases hk : now - e.last_access ≤ s.timeout_secs
        · rw [if_pos hk]
          exact hInv.2 (by simp [ha])
        · rw [if_neg hk] at ht
          simp at ht

/-- A safe result is not a panic. -/
theorem fmSafe_ne_panic (r : FmResult TopicFileManager) (h : FmSafe r) :
    r ≠ FmResult.panic := by
  intro he
  rw [he] at h
  exact h

/-- C9: every topic present in the open-files map also has a stored base
timestamp (and likewise for the aggregate stream); the invariant holds of a
fresh manager and is preserved by `get_or_create_file`,
`get_or_create_all_topics_file`, `write_message` and
`cleanup_timeout_files` (on both normal and I/O-error results); and under
it, the `unwrap` of the stored base timestamp on the cap-rotation path
never panics — neither `get_or_create_file` nor `write_message` can return
a panic. -/
theorem c9_open_files_have_base_timestamps :
    (∀ a b c d, TfmInv (TopicFileManager.new a b c d)) ∧
    (∀ s topic now ts date, TfmInv s →
      FmSafe (s.get_or_create_file topic now ts date)) ∧
    (∀ s now ts date, TfmInv s →
      FmSafePair (s.get_or_create_all_topics_file now ts date)) ∧
    (∀ s topic now ts date, TfmInv s →
      FmSafe (s.write_message topic now ts date)) ∧
    (∀ s now, TfmInv s → TfmInv (s.cleanup_timeout_files now)) ∧
    (∀ s topic now ts date, TfmInv s →
      s.get_or_create_file topic now ts date ≠ FmResult.panic) ∧
    (∀ s topic now ts date, TfmInv s →
      s.write_message topic now ts date ≠ FmResult.panic) :=
  ⟨tfmInv_new,
   fun s topic now ts date h => fmSafe_get_or_create_file s topic now ts date h,
   fun s now ts date h => fmSafePair_get_or_create_all_topics_file s now ts date h,
   fun s topic now ts date h => fmSafe_write_message s topic now ts date h,
   fun s now h => tfmInv_cleanup_timeout_files s now h,
   fun s topic now ts date h =>
     fmSafe_ne_panic _ (fmSafe_get_or_create_file s topic now ts date h),
   fun s topic now ts date h =>
     fmSafe_ne_panic _ (fmSafe_write_message s topic now ts date h)⟩

/-- C9 witness: a concrete first write on a fresh manager cannot panic,
via the theorem. -/
theorem c9_open_files_have_base_timestamps_witness :
    TopicFileManager.write_message (TopicFileManager.new 30 false 60 false)
      "t" 0 "T" "D" ≠ FmResult.panic :=
  (c9_open_files_have_base_timestamps).2.2.2.2.2.2
    (TopicFileManager.new 30 false 60 false) "t" 0 "T" "D"
    ((c9_open_files_have_base_timestamps).1 30 false 60 false)

/-- C1 evaluation (code bug): two `write_message` calls for one topic with
no rotation condition met leave a stored message count of 3, not 2 — the
count is incremented both on `get_or_create_file`'s access path and in
`write_message`'s increment block — while exactly one recording file exists
for the topic, as claimed. -/
theorem c1_message_count_failing_input :
    ∃ s : TopicFileManager,
      writeNTimes (TopicFileManager.new 30 false 60 false) "sensor" "T" "D" 2 =
        FmResult.ok s ∧
      (s.files "sensor").map FileEntry.message_count = some 3 ∧
      (s.created.filter (fun f => CreatedFile.isForTopic f "sensor")).length = 1 := by
  refine ⟨_, rfl, rfl, rfl⟩

/-- One `write_message` on an existing fresh stream (no timeout, cap not
reached) adds TWO to the stored message count: one increment on the access
path inside `get_or_create_file` and one in `write_message`'s own increment
block. -/
theorem write_step_no_rotation (topic ts date ts2 date2 : String) (c : Nat)
    (hc : c < 100000) :
    TopicFileManager.write_message (oneStreamState topic ts date c) topic 0 ts2 date2 =
      FmResult.ok (oneStreamState topic ts date (c + 2)) := by
  have hnc : ¬ (100000 ≤ c) := by omega
  simp only [TopicFileManager.write_message, TopicFileManager.get_or_create_file,
    TopicFileManager.get_or_create_all_topics_file, TopicFileManager.bumpTopicCount,
    TopicFileManager.bumpAllTopicsCount, oneStreamState, setFn_apply, if_true,
    eq_self_iff_true, hnc]
  norm_num
  funext t
  by_cases h : t = topic
  · simp [setFn, h]
  · simp [setFn, h]

/-- The first `write_message` on a fresh manager creates the stream (count
0) and then counts the message once. -/
theorem write_first (topic ts date : String) :
    TopicFileManager.write_message (TopicFileManager.new 30 false 60 false)
      topic 0 ts date = FmResult.ok (oneStreamState topic ts date 1) := by
  simp only [TopicFileManager.write_message, TopicFileManager.get_or_create_file,
    TopicFileManager.new, TopicFileManager.openTopicFile,
    TopicFileManager.get_or_create_all_topics_file, TopicFileManager.bumpTopicCount,
    TopicFileManager.bumpAllTopicsCount, oneStreamState, setFn_apply]
  norm_num
  funext t
  by_cases h : t = topic
  · simp [setFn, h]
  · simp [setFn, h]

/-- Closed form: through the 50,001st message no rotation has happened and
the single stream's count is `2k − 1` after `k` writes. -/
theorem writeN_closed (topic ts date : String) :
    ∀ k, 1 ≤ k → k ≤ 50001 →
    writeNTimes (TopicFileManager.new 30 false 60 false) topic ts date k =
      FmResult.ok (oneStreamState topic ts date (2 * k - 1)) := by
  intro k
  induction k with
  | zero => intro h1 _; exact absurd h1 (by omega)
  | succ n ih =>
      intro h1 h2
      by_cases hn : n = 0
      · subst hn
        simp only [writeNTimes]
        exact (write_first topic ts date).trans (by norm_num)
      · have h1' : 1 ≤ n := by omega
        have h2' : n ≤ 50001 := by omega
        simp only [writeNTimes, ih h1' h2']
        have hc : 2 * n - 1 < 100000 := by omega
        rw [write_step_no_rotation topic ts date ts date _ hc]
        rw [show 2 * n - 1 + 2 = 2 * (n + 1) - 1 from by omega]

/-- C2 evaluation (code bug): after 50,001 writes to one topic with no
idle gaps, the single stream's stored count is 100,001 — strictly above the
100,000 cap, refuting the claimed invariant `count ≤ cap` — and the very
next write (the 50,002nd message, not the 100,001st) rotates: a second file
with sequence number 1 and the SAME base timestamp is created and the count
resets.  Root cause: the count is incremented twice per message. -/
theorem c2_cap_and_rotation :
    ∃ s s' : TopicFileManager,
      writeNTimes (TopicFileManager.new 30 false 60 false) "t" "T" "D" 50001 =
        FmResult.ok s ∧
      (s.files "t").map FileEntry.message_count = some 100001 ∧
      s.max_messages_per_file = 100000 ∧
      (s.created.filter (fun f => CreatedFile.isForTopic f "t")).length = 1 ∧
      TopicFileManager.write_message s "t" 0 "T2" "D2" = FmResult.ok s' ∧
      s'.created = [CreatedFile.topicFile "t" "D" "T" 0,
        CreatedFile.topicFile "t" "D2" "T" 1] ∧
      (s'.files "t").map FileEntry.file_number = some 1 ∧
      (s'.files "t").map FileEntry.message_count = some 1 ∧
      s'.base_timestamps "t" = some "T" := by
  refine ⟨oneStreamState "t" "T" "D" 100001, _,
    (writeN_closed "t" "T" "D" 50001 (by norm_num) (by norm_num)).trans
      (by rw [show 2 * 50001 - 1 = 100001 from by norm_num]),
    rfl, rfl, rfl, rfl, rfl, rfl, rfl, rfl⟩
